import Mathlib

/-!
Verification development for the email-backup service (backup.py,
cleanup.py, email_common.py).

The Python source is shallowly embedded: message parts, parsed messages
and SQLite rows become Lean structures; the sqlite3 connection with its
implicit (deferred) transaction becomes a `Conn` carrying a committed
database plus a list of pending operations that a `commit` applies;
exceptions raised and caught by the code become explicit `Except` values
and failure-point oracles.  External, environment-supplied primitives
(hashlib.sha256, codec lookup, bytes.decode with errors="replace",
email.utils.parsedate_to_datetime, strftime, str.isalnum) are parameters
of the model, bundled in `Env`.
-/

namespace EmailBackup

/-- Bytes of a decoded payload, one natural number per byte. -/
abbrev Bytes := List Nat

/-- One MIME part as yielded by `msg.walk()`: declared content type, the
result of `get_filename()` (none when absent), the result of
`get_payload(decode=True)` (none when there is no decodable payload) and
the result of `get_content_charset()`. -/
structure Part where
  content_type : String
  filename : Option String
  payload : Option Bytes
  charset : Option String
  deriving DecidableEq

/-- A parsed email message (`email.message_from_bytes`): whether it is
multipart, the parts yielded by `walk()`, the top-level payload and
charset used on the non-multipart path, and the headers the backup
reads with `msg.get`. -/
structure PyMessage where
  is_multipart : Bool
  parts : List Part
  payload : Option Bytes
  charset : Option String
  header_message_id : Option String
  header_subject : Option String
  header_from : Option String
  header_to : Option String
  header_date : Option String
  deriving DecidableEq

/-- The Gmail API response for a raw-format `messages().get`: the parsed
message plus the snippet, thread id and the serialized label list
(`json.dumps(raw_msg.get("labelIds", []))` modelled as a plain string). -/
structure RawMsg where
  msg : PyMessage
  snippet : String
  thread_id : String
  labels : String
  deriving DecidableEq

/-- Python truthiness of an optional string: `None` and `""` are falsy. -/
def truthyStr : Option String → Bool
  | none => false
  | some v => v != ""

/-- Python `part.get_content_charset() or "utf-8"`: both `None` and the
empty string fall back to `"utf-8"`. -/
def charsetOr : Option String → String
  | none => "utf-8"
  | some s => if s = "" then "utf-8" else s

/-- The attachment metadata dict built by `extract_attachments`. -/
structure AttachmentRec where
  filename : String
  content_type : String
  size_bytes : Nat
  sha256 : String
  local_path : String
  paperless_exported : Bool
  deriving DecidableEq

/-- A character the filename sanitizer keeps unchanged:
`c.isalnum() or c in ".-_ "`.  The Python per-character `isalnum`
predicate is a parameter. -/
def allowedChar (alnum : Char → Bool) (c : Char) : Bool :=
  alnum c || c = '.' || c = '-' || c = '_' || c = ' '

/-- Filename sanitization from `extract_attachments`:
`"".join(c if c.isalnum() or c in ".-_ " else "_" for c in filename)`. -/
def sanitizeFilename (alnum : Char → Bool) (s : String) : String :=
  String.mk (s.data.map fun c => if allowedChar alnum c then c else '_')

/-- One iteration of the `extract_attachments` loop: skip a part whose
filename is falsy (`if not filename: continue`); skip a part whose
decoded payload is falsy (`if not payload: continue`); otherwise record
the original filename, content type, payload length, SHA-256 digest of
the payload, and the storage path
`ATTACHMENTS_PATH / message_id[:2] / message_id / safe_filename`. -/
def attOfPart (sha : Bytes → String) (alnum : Char → Bool)
    (attRoot : String) (paperless : Bool) (message_id : String) (p : Part) :
    Option AttachmentRec :=
  match p.filename with
  | none => none
  | some fn =>
    if fn = "" then none
    else
      match p.payload with
      | none => none
      | some pl =>
        if pl = [] then none
        else
          some { filename := fn
                 content_type := p.content_type
                 size_bytes := pl.length
                 sha256 := sha pl
                 local_path := attRoot ++ "/" ++ message_id.take 2 ++ "/" ++
                   message_id ++ "/" ++ sanitizeFilename alnum fn
                 paperless_exported := paperless }

/-- Embedding of `extract_attachments(msg, message_id)` from
email_common.py / backup.py: walk every part and collect the records
kept by the loop body. -/
def extract_attachments (sha : Bytes → String) (alnum : Char → Bool)
    (attRoot : String) (paperless : Bool) (m : PyMessage) (message_id : String) :
    List AttachmentRec :=
  m.parts.filterMap (attOfPart sha alnum attRoot paperless message_id)

/-- Python `payload.decode(cs, errors="replace")`: for a charset known to
the codec registry it returns the (total, lossy-replacement) decode
`decRep cs pl`; for an unknown charset it raises `LookupError`, modelled
as `Except.error`. -/
def pyDecode (known : String → Bool) (decRep : String → Bytes → String)
    (cs : String) (pl : Bytes) : Except String String :=
  if known cs then .ok (decRep cs pl) else .error cs

/-- The `try/except LookupError` around each decode in
`extract_body_text`: on `LookupError` fall back to
`payload.decode("utf-8", errors="replace")`. -/
def decodeWithFallback (known : String → Bool) (decRep : String → Bytes → String)
    (cs : String) (pl : Bytes) : String :=
  match pyDecode known decRep cs pl with
  | .ok s => s
  | .error _ => decRep "utf-8" pl

/-- Embedding of `extract_body_text(msg)`: on the multipart path join the
decodes of every `text/plain` part without a filename and with a truthy
payload, separated by newlines; on the single-part path decode the
top-level payload if truthy, else return the empty string. -/
def extract_body_text (known : String → Bool) (decRep : String → Bytes → String)
    (m : PyMessage) : String :=
  if m.is_multipart then
    String.intercalate "\n" (m.parts.filterMap fun p =>
      if p.content_type = "text/plain" && !truthyStr p.filename then
        match p.payload with
        | none => none
        | some pl =>
          if pl = [] then none
          else some (decodeWithFallback known decRep (charsetOr p.charset) pl)
      else none)
  else
    match m.payload with
    | none => ""
    | some pl =>
      if pl = [] then ""
      else decodeWithFallback known decRep (charsetOr m.charset) pl

/-- Decoding policy as the spec words it: decode with the declared
charset using lossy replacement; for an unrecognized charset fall back to
UTF-8 with lossy replacement.  Total by construction; stated from the
spec for comparison against the code-derived `decodeWithFallback`. -/
def specDecode (known : String → Bool) (decRep : String → Bytes → String)
    (cs : String) (pl : Bytes) : String :=
  if known cs then decRep cs pl else decRep "utf-8" pl

/-- Body extraction as the spec words it, built on the total `specDecode`
(never raises).  Stated from the spec for comparison against the
code-derived `extract_body_text`. -/
def bodyTextSpec (known : String → Bool) (decRep : String → Bytes → String)
    (m : PyMessage) : String :=
  if m.is_multipart then
    String.intercalate "\n" (m.parts.filterMap fun p =>
      if p.content_type = "text/plain" && !truthyStr p.filename then
        match p.payload with
        | none => none
        | some pl =>
          if pl = [] then none
          else some (specDecode known decRep (charsetOr p.charset) pl)
      else none)
  else
    match m.payload with
    | none => ""
    | some pl =>
      if pl = [] then ""
      else specDecode known decRep (charsetOr m.charset) pl

/-- Embedding of `parse_date_epoch(date_str)`: falsy input gives 0; the
parser (`email.utils.parsedate_to_datetime` composed with `timestamp`) is
a parameter returning `none` on any raised exception, which gives 0. -/
def parse_date_epoch (parsedate : String → Option Int) (date_str : String) : Int :=
  if date_str = "" then 0
  else
    match parsedate date_str with
    | some t => t
    | none => 0

/-- A row of the `emails` table (schema from `init_db`). -/
@[ext]
structure EmailRow where
  message_id : String
  gmail_id : String
  thread_id : String
  subject : String
  sender : String
  recipients : String
  date : String
  date_epoch : Int
  labels : String
  snippet : String
  body_text : String
  has_attachments : Bool
  attachment_count : Nat
  raw_path : String
  backed_up_at : String
  deleted_from_gmail : Bool
  deriving DecidableEq

/-- A row of the `attachments` table. -/
@[ext]
structure AttRow where
  message_id : String
  filename : String
  content_type : String
  size_bytes : Nat
  sha256 : String
  local_path : String
  paperless_exported : Bool
  deriving DecidableEq

/-- An entry of the `emails_fts` index.  Rows of `emails` are only ever
inserted, so the rowid the trigger copies is modelled by the message
key of the inserted row. -/
@[ext]
structure FtsRow where
  key : String
  subject : String
  sender : String
  recipients : String
  body_text : String
  deriving DecidableEq

/-- A row of the `cleanup_runs` audit table. -/
@[ext]
structure CleanupRow where
  run_at : String
  cutoff_date : String
  retention_days : Nat
  emails_deleted : Nat
  emails_kept : Nat
  deriving DecidableEq

/-- The SQLite database state. -/
@[ext]
structure DB where
  emails : List EmailRow
  attachments : List AttRow
  fts : List FtsRow
  cleanup_runs : List CleanupRow
  deriving DecidableEq

/-- The `emails_ai` AFTER INSERT trigger copies the indexed columns of a
freshly inserted emails row into the full-text index. -/
def ftsOf (r : EmailRow) : FtsRow :=
  ⟨r.message_id, r.subject, r.sender, r.recipients, r.body_text⟩

/-- Write operations issued through `conn.execute` during backup. -/
inductive DBOp
  | insertEmail (r : EmailRow)
  | insertAtt (a : AttRow)
  deriving DecidableEq

/-- Applying one write: an emails insert also fires the `emails_ai`
trigger, inserting the matching full-text row in the same transaction. -/
def applyOp (db : DB) : DBOp → DB
  | .insertEmail r => { db with emails := db.emails ++ [r], fts := db.fts ++ [ftsOf r] }
  | .insertAtt a => { db with attachments := db.attachments ++ [a] }

/-- Applying a sequence of writes in order. -/
def applyOps (db : DB) (ops : List DBOp) : DB := ops.foldl applyOp db

/-- A sqlite3 connection in Python's default deferred-transaction mode:
`committed` is the durable database, `pending` the statements executed
since the last commit.  `conn.commit()` makes the pending writes durable;
an exception caught by the caller leaves `pending` in place, because the
source performs no rollback. -/
@[ext]
structure Conn where
  committed : DB
  pending : List DBOp
  deriving DecidableEq

/-- The state a statement on this connection observes: committed data
plus the connection's own uncommitted writes. -/
def Conn.view (c : Conn) : DB := applyOps c.committed c.pending

/-- Model of `conn.commit()`. -/
def Conn.commit (c : Conn) : Conn := ⟨c.view, []⟩

/-- The `gmail_id` column of the emails table. -/
def gmailIds (db : DB) : List String := db.emails.map (·.gmail_id)

/-- The `message_id` (primary key) column of the emails table. -/
def messageIds (db : DB) : List String := db.emails.map (·.message_id)

/-- Executing the emails INSERT: SQLite checks the `message_id` PRIMARY
KEY and the `gmail_id` UNIQUE constraint against the connection's view
and raises `IntegrityError` (modelled as `Except.error`) on a violation;
otherwise the statement joins the pending transaction. -/
def execInsertEmail (c : Conn) (r : EmailRow) : Except Unit Conn :=
  if r.message_id ∈ messageIds c.view ∨ r.gmail_id ∈ gmailIds c.view then .error ()
  else .ok { c with pending := c.pending ++ [.insertEmail r] }

/-- Executing an attachments INSERT (no constraint can fail). -/
def execInsertAtt (c : Conn) (a : AttRow) : Conn :=
  { c with pending := c.pending ++ [.insertAtt a] }

/-- External primitives the backup uses, as parameters of the model. -/
structure Env where
  sha : Bytes → String
  hashKey : String → String
  alnum : Char → Bool
  parsedate : String → Option Int
  known : String → Bool
  decRep : String → Bytes → String
  fmtYM : Int → String
  rawRoot : String
  attRoot : String
  paperless : Bool
  now : String

/-- Where an exception interrupts the processing of one message, if
anywhere: before the emails INSERT (fetch, decode, parse or file I/O),
or after the emails INSERT but before the commit.  The source catches
the exception, logs it, and continues with the next message without
rolling back. -/
inductive FailAt
  | noFail
  | beforeInsert
  | afterInsert
  deriving DecidableEq

/-- State of one `backup_emails` run: the connection plus the
`total_backed_up` and `total_skipped` counters. -/
@[ext]
structure BState where
  conn : Conn
  newly : Nat
  skipped : Nat
  deriving DecidableEq

/-- The Message-ID used for the emails row:
`msg.get("Message-ID", gmail_id)`. -/
def midOf (fetch : String → RawMsg) (gid : String) : String :=
  ((fetch gid).msg.header_message_id).getD gid

/-- The emails row built for one fetched message, mirroring the tuple of
the INSERT in `backup_emails` (`deleted_from_gmail` literal 0). -/
def buildRow (env : Env) (gid : String) (raw : RawMsg) : EmailRow :=
  let mid := raw.msg.header_message_id.getD gid
  let key := env.hashKey mid
  let epoch := parse_date_epoch env.parsedate (raw.msg.header_date.getD "")
  let bucket := if epoch ≠ 0 then env.fmtYM epoch else "unknown"
  let atts := extract_attachments env.sha env.alnum env.attRoot env.paperless raw.msg key
  { message_id := mid
    gmail_id := gid
    thread_id := raw.thread_id
    subject := raw.msg.header_subject.getD "(no subject)"
    sender := raw.msg.header_from.getD ""
    recipients := raw.msg.header_to.getD ""
    date := raw.msg.header_date.getD ""
    date_epoch := epoch
    labels := raw.labels
    snippet := raw.snippet
    body_text := extract_body_text env.known env.decRep raw.msg
    has_attachments := !atts.isEmpty
    attachment_count := atts.length
    raw_path := env.rawRoot ++ "/" ++ bucket ++ "/" ++ key ++ ".eml"
    backed_up_at := env.now
    deleted_from_gmail := false }

/-- The attachments-table row inserted for one extracted attachment. -/
def attRowOf (message_id : String) (a : AttachmentRec) : AttRow :=
  ⟨message_id, a.filename, a.content_type, a.size_bytes, a.sha256,
    a.local_path, a.paperless_exported⟩

/-- The body of the `try` block of `backup_emails` once the skip check
has passed: fetch and parse, execute the emails INSERT (an
`IntegrityError` is caught by the enclosing `except`, leaving counters
and the connection untouched), execute one attachments INSERT per
extracted attachment, commit, and count the message as newly backed up.
A caught exception after the emails INSERT keeps the statement pending
because the source never rolls back. -/
def archiveOne (env : Env) (fetch : String → RawMsg) (failAt : String → FailAt)
    (st : BState) (gid : String) : BState :=
  let raw := fetch gid
  let row := buildRow env gid raw
  match execInsertEmail st.conn row with
  | .error _ => st
  | .ok c1 =>
    if failAt gid = .afterInsert then { st with conn := c1 }
    else
      let atts := extract_attachments env.sha env.alnum env.attRoot env.paperless
        raw.msg (env.hashKey row.message_id)
      let c2 := atts.foldl (fun c a => execInsertAtt c (attRowOf row.message_id a)) c1
      { st with conn := c2.commit, newly := st.newly + 1 }

/-- Processing one listed message in `backup_emails`: the skip check
(`SELECT 1 FROM emails WHERE gmail_id = ?`, which reads the connection's
view) runs before any fetch; a message already present only bumps
`total_skipped`.  An exception before the emails INSERT leaves the state
unchanged (caught, logged, `continue`). -/
def processMessage (env : Env) (fetch : String → RawMsg) (failAt : String → FailAt)
    (st : BState) (gid : String) : BState :=
  if gid ∈ gmailIds st.conn.view then { st with skipped := st.skipped + 1 }
  else if failAt gid = .beforeInsert then st
  else archiveOne env fetch failAt st gid

/-- One `backup_emails` run over the concatenated pages of gmail ids
listed for the backup label, starting with fresh counters. -/
def backup_emails (env : Env) (fetch : String → RawMsg) (failAt : String → FailAt)
    (listing : List String) (conn : Conn) : BState :=
  listing.foldl (processMessage env fetch failAt) ⟨conn, 0, 0⟩

/-- A candidate message as the retention pass sees it: its gmail id and
its current remote label-id list, as returned by the metadata get. -/
structure CMsg where
  gmail_id : String
  labelIds : List String
  deriving DecidableEq

/-- State of one `cleanup_old_emails` run: the database (every local
write is committed immediately after it executes), the list of gmail ids
on which the remote trash call was issued, and the `deleted`/`kept`
counters. -/
@[ext]
structure CState where
  db : DB
  trashed : List String
  deleted : Nat
  kept : Nat
  deriving DecidableEq

/-- The protection test `if keep_label_id and keep_label_id in
current_labels`: a `None` keep label id (label absent from the mailbox)
is falsy, so nothing is protected by label. -/
def keepCheck (keepId : Option String) (labels : List String) : Bool :=
  match keepId with
  | none => false
  | some k => k ∈ labels

/-- Flip the remotely-deleted flag of one row. -/
def setDeletedFlag (r : EmailRow) : EmailRow := { r with deleted_from_gmail := true }

/-- The bookkeeping statement
`UPDATE emails SET deleted_from_gmail = 1 WHERE gmail_id = ?`
followed by its commit: a no-op when no row matches. -/
def markDeleted (db : DB) (gid : String) : DB :=
  { db with emails := db.emails.map fun r =>
      if r.gmail_id = gid then setDeletedFlag r else r }

/-- Processing one candidate in `cleanup_old_emails` (cleanup.py): a
message carrying the keep label is only counted as kept; in dry-run mode
the delete decision is logged and counted without the trash call or any
local write; otherwise the message is trashed remotely, the local flag
update runs, and the message is counted as deleted. -/
def cleanupStep (keepId : Option String) (dryRun : Bool) (st : CState) (m : CMsg) :
    CState :=
  if keepCheck keepId m.labelIds then { st with kept := st.kept + 1 }
  else if dryRun then { st with deleted := st.deleted + 1 }
  else { st with db := markDeleted st.db m.gmail_id
                 trashed := st.trashed ++ [m.gmail_id]
                 deleted := st.deleted + 1 }

/-- The pagination loop of `cleanup_old_emails`: each page is either a
message list or `none` when the list call raised.  A raised list call is
caught, logged, and breaks the loop; an empty page also breaks. -/
def runPages (keepId : Option String) (dryRun : Bool) :
    List (Option (List CMsg)) → CState → CState
  | [], st => st
  | none :: _, st => st
  | some [] :: _, st => st
  | some (m :: ms) :: rest, st =>
    runPages keepId dryRun rest ((m :: ms).foldl (cleanupStep keepId dryRun) st)

/-- The candidates the loop actually processes: the concatenation of the
pages before the first failed or empty page. -/
def processedMsgs : List (Option (List CMsg)) → List CMsg
  | [] => []
  | none :: _ => []
  | some [] :: _ => []
  | some (m :: ms) :: rest => (m :: ms) ++ processedMsgs rest

/-- Embedding of `cleanup_old_emails(service, conn, dry_run)` from
cleanup.py: run the pagination loop, then, unless this is a dry run,
append exactly one `cleanup_runs` row recording the cutoff date, the
retention-day count and the final counters, and commit it. -/
def cleanup_old_emails (keepId : Option String) (runAt cutoffStr : String)
    (retentionDays : Nat) (dryRun : Bool)
    (pages : List (Option (List CMsg))) (db : DB) : CState :=
  let st := runPages keepId dryRun pages ⟨db, [], 0, 0⟩
  if dryRun then st
  else
    { st with db := { st.db with cleanup_runs := st.db.cleanup_runs ++
        [⟨runAt, cutoffStr, retentionDays, st.deleted, st.kept⟩] } }

/-- Rows not protected by the keep label, in listing order, projected to
their gmail ids: the messages a non-dry-run pass trashes. -/
def toTrash (keepId : Option String) (ms : List CMsg) : List String :=
  (ms.filter fun m => !keepCheck keepId m.labelIds).map (·.gmail_id)

/-- Flag update accumulated over a list of trashed gmail ids. -/
def markAll (es : List EmailRow) (gids : List String) : List EmailRow :=
  es.map fun r => if r.gmail_id ∈ gids then setDeletedFlag r else r

/-- Concrete fixtures for witnesses: a simple environment whose external
primitives are small computable functions. -/
def envA : Env :=
  { sha := fun pl => toString pl.length
    hashKey := fun s => s
    alnum := fun c => c.isAlpha || c.isDigit
    parsedate := fun s => if s = "D" then some 100 else none
    known := fun cs => cs = "utf-8"
    decRep := fun cs pl => cs ++ toString pl.length
    fmtYM := fun t => toString t
    rawRoot := "raw"
    attRoot := "att"
    paperless := false
    now := "T" }

/-- Fixture fetch: every gmail id `g` resolves to a simple message whose
Message-ID header is `"M" ++ g` and which has no parts. -/
def fetchA : String → RawMsg := fun g =>
  { msg := { is_multipart := false
             parts := []
             payload := none
             charset := none
             header_message_id := some ("M" ++ g)
             header_subject := none
             header_from := none
             header_to := none
             header_date := none }
    snippet := ""
    thread_id := ""
    labels := "[]" }

/-- Fixture fetch with a shared Message-ID header: every message claims
the same Message-ID `"M"`. -/
def fetchDup : String → RawMsg := fun _ =>
  { msg := { is_multipart := false
             parts := []
             payload := none
             charset := none
             header_message_id := some "M"
             header_subject := none
             header_from := none
             header_to := none
             header_date := none }
    snippet := ""
    thread_id := ""
    labels := "[]" }

/-- Fixture failure oracle: no message fails. -/
def failNone : String → FailAt := fun _ => .noFail

/-- Fixture failure oracle for the atomicity scenario: message `g1`
raises after its emails INSERT but before its commit; every other
message succeeds. -/
def failB : String → FailAt := fun g => if g = "g1" then .afterInsert else .noFail

/-- An empty database and a connection with no pending writes. -/
def dbEmpty : DB := ⟨[], [], [], []⟩

/-- A fresh connection over the empty database. -/
def connEmpty : Conn := ⟨dbEmpty, []⟩

/-- Fixture message part carrying an attachment. -/
def partA : Part :=
  { content_type := "application/pdf"
    filename := some "f/1.pdf"
    payload := some [7]
    charset := none }

/-- Fixture message holding the attachment part. -/
def msgA : PyMessage :=
  { is_multipart := true
    parts := [partA]
    payload := none
    charset := none
    header_message_id := some "M"
    header_subject := none
    header_from := none
    header_to := none
    header_date := none }

/-- Fixture cleanup candidates: one message protected by the keep label
`"KEEP"`, one unprotected. -/
def candsA : List CMsg := [⟨"k1", ["KEEP"]⟩, ⟨"d1", ["OTHER"]⟩]

/-- Fixture database holding a backed-up copy of the unprotected
candidate. -/
def dbC : DB :=
  ⟨[{ message_id := "m1", gmail_id := "d1", thread_id := "", subject := "s",
      sender := "f", recipients := "t", date := "", date_epoch := 0,
      labels := "[]", snippet := "", body_text := "", has_attachments := false,
      attachment_count := 0, raw_path := "p", backed_up_at := "T",
      deleted_from_gmail := false }], [], [], []⟩

/-! Helper lemmas about the retention pass. -/

theorem setDeletedFlag_gmail_id (r : EmailRow) :
    (setDeletedFlag r).gmail_id = r.gmail_id := rfl

theorem setDeletedFlag_idem (r : EmailRow) :
    setDeletedFlag (setDeletedFlag r) = setDeletedFlag r := rfl

theorem markAll_nil (es : List EmailRow) : markAll es [] = es := by
  simp [markAll]

theorem markDeleted_emails (db : DB) (g : String) :
    (markDeleted db g).emails = markAll db.emails [g] := by
  simp [markDeleted, markAll]

theorem markDeleted_attachments (db : DB) (g : String) :
    (markDeleted db g).attachments = db.attachments := rfl

theorem markDeleted_fts (db : DB) (g : String) :
    (markDeleted db g).fts = db.fts := rfl

theorem markDeleted_cleanup_runs (db : DB) (g : String) :
    (markDeleted db g).cleanup_runs = db.cleanup_runs := rfl

theorem markAll_markAll (es : List EmailRow) (L1 L2 : List String) :
    markAll (markAll es L1) L2 = markAll es (L1 ++ L2) := by
  unfold markAll
  rw [List.map_map]
  apply List.map_congr_left
  intro r _
  by_cases h1 : r.gmail_id ∈ L1
  · by_cases h2 : r.gmail_id ∈ L2 <;>
      simp [Function.comp, h1, h2, setDeletedFlag_gmail_id, setDeletedFlag_idem,
        List.mem_append]
  · by_cases h2 : r.gmail_id ∈ L2 <;>
      simp [Function.comp, h1, h2, List.mem_append]

theorem toTrash_cons_kept (keepId : Option String) (m : CMsg) (ms : List CMsg)
    (h : keepCheck keepId m.labelIds = true) :
    toTrash keepId (m :: ms) = toTrash keepId ms := by
  simp [toTrash, List.filter_cons, h]

theorem toTrash_cons_unkept (keepId : Option String) (m : CMsg) (ms : List CMsg)
    (h : keepCheck keepId m.labelIds = false) :
    toTrash keepId (m :: ms) = m.gmail_id :: toTrash keepId ms := by
  simp [toTrash, List.filter_cons, h]

theorem toTrash_append (keepId : Option String) (a b : List CMsg) :
    toTrash keepId (a ++ b) = toTrash keepId a ++ toTrash keepId b := by
  simp [toTrash, List.filter_append]

theorem foldl_cleanupStep_false (keepId : Option String) (ms : List CMsg) :
    ∀ st : CState,
      ms.foldl (cleanupStep keepId false) st =
        ⟨{ st.db with emails := markAll st.db.emails (toTrash keepId ms) },
          st.trashed ++ toTrash keepId ms,
          st.deleted + ms.countP (fun m => !keepCheck keepId m.labelIds),
          st.kept + ms.countP (fun m => keepCheck keepId m.labelIds)⟩ := by
  induction ms with
  | nil =>
    intro st
    obtain ⟨⟨es, as, fs, cr⟩, tr, d, k⟩ := st
    simp [toTrash, markAll_nil]
  | cons m ms ih =>
    intro st
    obtain ⟨⟨es, as, fs, cr⟩, tr, d, k⟩ := st
    rw [List.foldl_cons, ih]
    cases hk : keepCheck keepId m.labelIds with
    | true =>
      simp [cleanupStep, hk, toTrash_cons_kept keepId m ms hk, List.countP_cons,
        CState.mk.injEq, DB.mk.injEq]
      all_goals omega
    | false =>
      simp [cleanupStep, hk, toTrash_cons_unkept keepId m ms hk, markDeleted_emails,
        markDeleted_attachments, markDeleted_fts, markDeleted_cleanup_runs,
        markAll_markAll, List.countP_cons, CState.mk.injEq, DB.mk.injEq,
        List.append_assoc]
      all_goals omega

theorem foldl_cleanupStep_true (keepId : Option String) (ms : List CMsg) :
    ∀ st : CState,
      ms.foldl (cleanupStep keepId true) st =
        ⟨st.db, st.trashed,
          st.deleted + ms.countP (fun m => !keepCheck keepId m.labelIds),
          st.kept + ms.countP (fun m => keepCheck keepId m.labelIds)⟩ := by
  induction ms with
  | nil =>
    intro st
    obtain ⟨db, tr, d, k⟩ := st
    simp
  | cons m ms ih =>
    intro st
    obtain ⟨db, tr, d, k⟩ := st
    rw [List.foldl_cons, ih]
    cases hk : keepCheck keepId m.labelIds <;>
      simp [cleanupStep, hk, List.countP_cons, CState.mk.injEq] <;>
      all_goals omega

theorem runPages_false (keepId : Option String) (pages : List (Option (List CMsg))) :
    ∀ st : CState,
      runPages keepId false pages st =
        ⟨{ st.db with emails := markAll st.db.emails (toTrash keepId (processedMsgs pages)) },
          st.trashed ++ toTrash keepId (processedMsgs pages),
          st.deleted + (processedMsgs pages).countP (fun m => !keepCheck keepId m.labelIds),
          st.kept + (processedMsgs pages).countP (fun m => keepCheck keepId m.labelIds)⟩ := by
  induction pages with
  | nil =>
    intro st
    obtain ⟨⟨es, as, fs, cr⟩, tr, d, k⟩ := st
    simp [runPages, processedMsgs, toTrash, markAll_nil]
  | cons p rest ih =>
    intro st
    match p with
    | none =>
      obtain ⟨⟨es, as, fs, cr⟩, tr, d, k⟩ := st
      simp [runPages, processedMsgs, toTrash, markAll_nil]
    | some [] =>
      obtain ⟨⟨es, as, fs, cr⟩, tr, d, k⟩ := st
      simp [runPages, processedMsgs, toTrash, markAll_nil]
    | some (m :: ms) =>
      show runPages keepId false rest ((m :: ms).foldl (cleanupStep keepId false) st) = _
      rw [foldl_cleanupStep_false, ih]
      obtain ⟨⟨es, as, fs, cr⟩, tr, d, k⟩ := st
      rw [show processedMsgs (some (m :: ms) :: rest) = (m :: ms) ++ processedMsgs rest
        from rfl]
      simp only [toTrash_append, List.countP_append, ← markAll_markAll,
        ← List.append_assoc, ← Nat.add_assoc]

theorem runPages_true (keepId : Option String) (pages : List (Option (List CMsg))) :
    ∀ st : CState,
      runPages keepId true pages st =
        ⟨st.db, st.trashed,
          st.deleted + (processedMsgs pages).countP (fun m => !keepCheck keepId m.labelIds),
          st.kept + (processedMsgs pages).countP (fun m => keepCheck keepId m.labelIds)⟩ := by
  induction pages with
  | nil =>
    intro st
    obtain ⟨db, tr, d, k⟩ := st
    simp [runPages, processedMsgs]
  | cons p rest ih =>
    intro st
    match p with
    | none =>
      obtain ⟨db, tr, d, k⟩ := st
      simp [runPages, processedMsgs]
    | some [] =>
      obtain ⟨db, tr, d, k⟩ := st
      simp [runPages, processedMsgs]
    | some (m :: ms) =>
      show runPages keepId true rest ((m :: ms).foldl (cleanupStep keepId true) st) = _
      rw [foldl_cleanupStep_true, ih]
      obtain ⟨db, tr, d, k⟩ := st
      rw [show processedMsgs (some (m :: ms) :: rest) = (m :: ms) ++ processedMsgs rest
        from rfl]
      simp only [List.countP_append, ← Nat.add_assoc]

theorem cleanup_false_eq (keepId : Option String) (runAt cut : String) (ret : Nat)
    (pages : List (Option (List CMsg))) (db : DB) :
    cleanup_old_emails keepId runAt cut ret false pages db =
      ⟨⟨markAll db.emails (toTrash keepId (processedMsgs pages)),
        db.attachments, db.fts,
        db.cleanup_runs ++ [⟨runAt, cut, ret,
          (processedMsgs pages).countP (fun m => !keepCheck keepId m.labelIds),
          (processedMsgs pages).countP (fun m => keepCheck keepId m.labelIds)⟩]⟩,
        toTrash keepId (processedMsgs pages),
        (processedMsgs pages).countP (fun m => !keepCheck keepId m.labelIds),
        (processedMsgs pages).countP (fun m => keepCheck keepId m.labelIds)⟩ := by
  obtain ⟨es, as, fs, cr⟩ := db
  simp [cleanup_old_emails, runPages_false]

theorem cleanup_true_eq (keepId : Option String) (runAt cut : String) (ret : Nat)
    (pages : List (Option (List CMsg))) (db : DB) :
    cleanup_old_emails keepId runAt cut ret true pages db =
      ⟨db, [],
        (processedMsgs pages).countP (fun m => !keepCheck keepId m.labelIds),
        (processedMsgs pages).countP (fun m => keepCheck keepId m.labelIds)⟩ := by
  obtain ⟨es, as, fs, cr⟩ := db
  simp [cleanup_old_emails, runPages_true]

/-- C3: in a non-dry-run retention pass, every processed candidate that
carries the keep label is counted as kept and its gmail id is never
trashed; every other processed candidate is trashed and counted as
deleted; every local emails row whose gmail id was trashed has its
remotely-deleted flag set afterwards; and when the keep label id is
absent (`none`), no candidate is protected by label. -/
theorem c3_retention_pass (keepId : Option String) (runAt cut : String) (ret : Nat)
    (pages : List (Option (List CMsg))) (db : DB)
    (hnd : ((processedMsgs pages).map (·.gmail_id)).Nodup) :
    (cleanup_old_emails keepId runAt cut ret false pages db).kept =
      (processedMsgs pages).countP (fun m => keepCheck keepId m.labelIds) ∧
    (cleanup_old_emails keepId runAt cut ret false pages db).deleted =
      (processedMsgs pages).countP (fun m => !keepCheck keepId m.labelIds) ∧
    (cleanup_old_emails keepId runAt cut ret false pages db).trashed =
      toTrash keepId (processedMsgs pages) ∧
    (∀ m ∈ processedMsgs pages, keepCheck keepId m.labelIds = true →
      m.gmail_id ∉ (cleanup_old_emails keepId runAt cut ret false pages db).trashed) ∧
    (∀ r ∈ db.emails,
      r.gmail_id ∈ (cleanup_old_emails keepId runAt cut ret false pages db).trashed →
      setDeletedFlag r ∈ (cleanup_old_emails keepId runAt cut ret false pages db).db.emails) ∧
    (keepId = none →
      (cleanup_old_emails keepId runAt cut ret false pages db).trashed =
        (processedMsgs pages).map (·.gmail_id)) := by
  rw [cleanup_false_eq]
  refine ⟨rfl, rfl, rfl, ?_, ?_, ?_⟩
  · intro m hm hkeep hmem
    simp only [toTrash, List.mem_map] at hmem
    obtain ⟨m', hm', heq⟩ := hmem
    have hm'mem : m' ∈ processedMsgs pages := List.mem_of_mem_filter hm'
    have hm'prop := List.of_mem_filter hm'
    have : m' = m := List.inj_on_of_nodup_map hnd hm'mem hm heq
    rw [this] at hm'prop
    simp [hkeep] at hm'prop
  · intro r hr hmem
    have : setDeletedFlag r =
        (fun r => if r.gmail_id ∈ toTrash keepId (processedMsgs pages)
          then setDeletedFlag r else r) r := by
      simp [hmem]
    rw [this]
    exact List.mem_map_of_mem _ hr
  · intro h
    subst h
    simp [toTrash, keepCheck]

/-- C4: the kept/deleted classification and the counters of a retention
pass are the same function of the remote pages for any two local
database states; the local store never influences eligibility. -/
theorem c4_retention_independent_of_store (keepId : Option String)
    (runAt cut : String) (ret : Nat) (dryRun : Bool)
    (pages : List (Option (List CMsg))) (db₁ db₂ : DB) :
    (cleanup_old_emails keepId runAt cut ret dryRun pages db₁).deleted =
      (cleanup_old_emails keepId runAt cut ret dryRun pages db₂).deleted ∧
    (cleanup_old_emails keepId runAt cut ret dryRun pages db₁).kept =
      (cleanup_old_emails keepId runAt cut ret dryRun pages db₂).kept ∧
    (cleanup_old_emails keepId runAt cut ret dryRun pages db₁).trashed =
      (cleanup_old_emails keepId runAt cut ret dryRun pages db₂).trashed := by
  cases dryRun
  · rw [cleanup_false_eq, cleanup_false_eq]
    exact ⟨rfl, rfl, rfl⟩
  · rw [cleanup_true_eq, cleanup_true_eq]
    exact ⟨rfl, rfl, rfl⟩

/-- C5: a dry-run retention pass computes the same deleted and kept
counts as the non-dry-run pass over the same remote pages, issues no
remote trash call, and leaves the local database — emails rows and
cleanup_runs rows included — completely unchanged. -/
theorem c5_dry_run_no_op (keepId : Option String) (runAt cut : String) (ret : Nat)
    (pages : List (Option (List CMsg))) (db : DB) :
    (cleanup_old_emails keepId runAt cut ret true pages db).deleted =
      (cleanup_old_emails keepId runAt cut ret false pages db).deleted ∧
    (cleanup_old_emails keepId runAt cut ret true pages db).kept =
      (cleanup_old_emails keepId runAt cut ret false pages db).kept ∧
    (cleanup_old_emails keepId runAt cut ret true pages db).trashed = [] ∧
    (cleanup_old_emails keepId runAt cut ret true pages db).db = db := by
  rw [cleanup_true_eq, cleanup_false_eq]
  exact ⟨rfl, rfl, rfl, rfl⟩

/-- C6: a non-dry-run retention pass appends exactly one cleanup_runs
row, recording the cutoff date, the retention-day count and the final
counters; the counters are accumulated over exactly the pages processed
before the first listing failure, so an early termination still gets its
audit row. -/
theorem c6_audit_row (keepId : Option String) (runAt cut : String) (ret : Nat)
    (pages : List (Option (List CMsg))) (db : DB) :
    (cleanup_old_emails keepId runAt cut ret false pages db).db.cleanup_runs =
      db.cleanup_runs ++ [⟨runAt, cut, ret,
        (cleanup_old_emails keepId runAt cut ret false pages db).deleted,
        (cleanup_old_emails keepId runAt cut ret false pages db).kept⟩] ∧
    (cleanup_old_emails keepId runAt cut ret false pages db).deleted =
      (processedMsgs pages).countP (fun m => !keepCheck keepId m.labelIds) ∧
    (cleanup_old_emails keepId runAt cut ret false pages db).kept =
      (processedMsgs pages).countP (fun m => keepCheck keepId m.labelIds) := by
  rw [cleanup_false_eq]
  exact ⟨rfl, rfl, rfl⟩

/-- Witness for C3 on concrete candidates: one protected, one not. -/
theorem c3_witness :
    (cleanup_old_emails (some "KEEP") "T" "C" 730 false [some candsA] dbC).kept = 1 ∧
    (cleanup_old_emails (some "KEEP") "T" "C" 730 false [some candsA] dbC).trashed =
      ["d1"] := by
  have h := c3_retention_pass (some "KEEP") "T" "C" 730 [some candsA] dbC (by decide)
  exact ⟨h.1.trans (by decide), h.2.2.1.trans (by decide)⟩

/-- Witness for C4 on concrete pages over two different stores. -/
theorem c4_witness :
    (cleanup_old_emails (some "KEEP") "T" "C" 730 false [some candsA] dbC).deleted =
      (cleanup_old_emails (some "KEEP") "T" "C" 730 false [some candsA] dbEmpty).deleted ∧
    (cleanup_old_emails (some "KEEP") "T" "C" 730 false [some candsA] dbC).kept =
      (cleanup_old_emails (some "KEEP") "T" "C" 730 false [some candsA] dbEmpty).kept :=
  ⟨(c4_retention_independent_of_store (some "KEEP") "T" "C" 730 false
      [some candsA] dbC dbEmpty).1,
    (c4_retention_independent_of_store (some "KEEP") "T" "C" 730 false
      [some candsA] dbC dbEmpty).2.1⟩

/-- Witness for C5 on concrete pages. -/
theorem c5_witness :
    (cleanup_old_emails (some "KEEP") "T" "C" 730 true [some candsA] dbC).deleted =
      (cleanup_old_emails (some "KEEP") "T" "C" 730 false [some candsA] dbC).deleted ∧
    (cleanup_old_emails (some "KEEP") "T" "C" 730 true [some candsA] dbC).db = dbC :=
  ⟨(c5_dry_run_no_op (some "KEEP") "T" "C" 730 [some candsA] dbC).1,
    (c5_dry_run_no_op (some "KEEP") "T" "C" 730 [some candsA] dbC).2.2.2⟩

/-- Witness for C6 with a listing failure after the first page: one
audit row is still appended, recording the counts of the first page. -/
theorem c6_witness :
    (cleanup_old_emails (some "KEEP") "T" "C" 730 false
      [some candsA, none, some candsA] dbC).db.cleanup_runs =
      dbC.cleanup_runs ++ [⟨"T", "C", 730,
        (cleanup_old_emails (some "KEEP") "T" "C" 730 false
          [some candsA, none, some candsA] dbC).deleted,
        (cleanup_old_emails (some "KEEP") "T" "C" 730 false
          [some candsA, none, some candsA] dbC).kept⟩] :=
  (c6_audit_row (some "KEEP") "T" "C" 730 [some candsA, none, some candsA] dbC).1

/-! Helper lemmas about the content extractor. -/

theorem decodeWithFallback_eq_specDecode (known : String → Bool)
    (decRep : String → Bytes → String) (cs : String) (pl : Bytes) :
    decodeWithFallback known decRep cs pl = specDecode known decRep cs pl := by
  unfold decodeWithFallback pyDecode specDecode
  cases h : known cs <;> simp [h]

theorem attOfPart_eq_some (sha : Bytes → String) (alnum : Char → Bool)
    (attRoot : String) (paperless : Bool) (key : String) (p : Part)
    (rec : AttachmentRec) :
    attOfPart sha alnum attRoot paperless key p = some rec ↔
    ∃ fn pl, p.filename = some fn ∧ fn ≠ "" ∧ p.payload = some pl ∧ pl ≠ [] ∧
      rec = ⟨fn, p.content_type, pl.length, sha pl,
        attRoot ++ "/" ++ key.take 2 ++ "/" ++ key ++ "/" ++
          sanitizeFilename alnum fn, paperless⟩ := by
  cases hfn : p.filename with
  | none => simp [attOfPart, hfn]
  | some fn =>
    by_cases hfe : fn = ""
    · simp [attOfPart, hfn, hfe]
    · cases hpl : p.payload with
      | none => simp [attOfPart, hfn, hfe, hpl]
      | some pl =>
        by_cases hple : pl = []
        · simp [attOfPart, hfn, hfe, hpl, hple]
        · simp [attOfPart, hfn, hfe, hpl, hple, eq_comm]

/-- C7: character decoding never fails a message: with an unknown
charset the caught LookupError falls back to UTF-8 with lossy
replacement, with a known charset the declared charset is used with
lossy replacement, and the implemented body extraction coincides with
the total extraction the spec words describe, on every message. -/
theorem c7_charset_fallback (known : String → Bool)
    (decRep : String → Bytes → String) :
    (∀ (cs : String) (pl : Bytes), known cs = false →
      decodeWithFallback known decRep cs pl = decRep "utf-8" pl) ∧
    (∀ (cs : String) (pl : Bytes), known cs = true →
      decodeWithFallback known decRep cs pl = decRep cs pl) ∧
    (∀ m : PyMessage, extract_body_text known decRep m = bodyTextSpec known decRep m) := by
  refine ⟨?_, ?_, ?_⟩
  · intro cs pl h
    simp [decodeWithFallback, pyDecode, h]
  · intro cs pl h
    simp [decodeWithFallback, pyDecode, h]
  · intro m
    simp only [extract_body_text, bodyTextSpec, decodeWithFallback_eq_specDecode]

/-- Witness for C7: an unknown charset still decodes, via the UTF-8
replacement fallback. -/
theorem c7_witness :
    decodeWithFallback envA.known envA.decRep "x-weird" [1, 2] =
      envA.decRep "utf-8" [1, 2] :=
  (c7_charset_fallback envA.known envA.decRep).1 "x-weird" [1, 2] (by decide)

/-- C9: a part contributes an attachment record exactly when its
filename and its decoded payload are both truthy; every record carries
the SHA-256 digest of the payload, the payload's byte length, and a
storage path of the form root/key-first-two-chars/key/sanitized name;
sanitization preserves length and replaces exactly the characters
outside alphanumerics, '.', '-', '_' and space with '_'. -/
theorem c9_attachments (sha : Bytes → String) (alnum : Char → Bool)
    (attRoot : String) (paperless : Bool) (m : PyMessage) (key : String) :
    (∀ rec : AttachmentRec,
      rec ∈ extract_attachments sha alnum attRoot paperless m key ↔
      ∃ p ∈ m.parts, ∃ fn pl, p.filename = some fn ∧ fn ≠ "" ∧
        p.payload = some pl ∧ pl ≠ [] ∧
        rec = ⟨fn, p.content_type, pl.length, sha pl,
          attRoot ++ "/" ++ key.take 2 ++ "/" ++ key ++ "/" ++
            sanitizeFilename alnum fn, paperless⟩) ∧
    (∀ fn : String, (sanitizeFilename alnum fn).data.length = fn.data.length) ∧
    (∀ (fn : String) (i : Nat) (h1 : i < (sanitizeFilename alnum fn).data.length)
      (h2 : i < fn.data.length),
      (sanitizeFilename alnum fn).data.get ⟨i, h1⟩ =
        if allowedChar alnum (fn.data.get ⟨i, h2⟩) then fn.data.get ⟨i, h2⟩
        else '_') := by
  refine ⟨?_, ?_, ?_⟩
  · intro rec
    simp [extract_attachments, List.mem_filterMap, attOfPart_eq_some]
  · intro fn
    simp [sanitizeFilename]
  · intro fn i h1 h2
    simp [sanitizeFilename, List.get_eq_getElem, List.getElem_map]

/-- Witness for C9: a PDF part whose filename contains a slash yields
the record with the sanitized name and partitioned path. -/
theorem c9_witness :
    (⟨"f/1.pdf", "application/pdf", 1, envA.sha [7],
      "att/ke/key1/f_1.pdf", false⟩ : AttachmentRec) ∈
      extract_attachments envA.sha envA.alnum "att" false msgA "key1" := by
  refine ((c9_attachments envA.sha envA.alnum "att" false msgA "key1").1 _).mpr ?_
  exact ⟨partA, by decide, "f/1.pdf", [7], rfl, by decide, rfl, by decide, by decide⟩

/-! Helper lemmas about the connection and the sync engine. -/

theorem applyOps_append (db : DB) (l1 l2 : List DBOp) :
    applyOps db (l1 ++ l2) = applyOps (applyOps db l1) l2 :=
  List.foldl_append applyOp db l1 l2

theorem view_append_op (c : Conn) (op : DBOp) :
    Conn.view ⟨c.committed, c.pending ++ [op]⟩ = applyOp c.view op := by
  simp [Conn.view, applyOps_append, applyOps]

theorem commit_view (c : Conn) : c.commit.view = c.view := rfl

theorem commit_committed (c : Conn) : c.commit.committed = c.view := rfl

theorem execInsertAtt_view_emails (c : Conn) (a : AttRow) :
    (execInsertAtt c a).view.emails = c.view.emails := by
  show (Conn.view ⟨c.committed, c.pending ++ [.insertAtt a]⟩).emails = _
  rw [view_append_op]
  rfl

theorem attsFold_view_emails (mid : String) (atts : List AttachmentRec) :
    ∀ c : Conn,
      ((atts.foldl (fun c a => execInsertAtt c (attRowOf mid a)) c)).view.emails =
        c.view.emails := by
  induction atts with
  | nil => intro c; rfl
  | cons a atts ih =>
    intro c
    rw [List.foldl_cons, ih, execInsertAtt_view_emails]

theorem execInsertEmail_ok (c : Conn) (r : EmailRow)
    (hm : r.message_id ∉ messageIds c.view) (hg : r.gmail_id ∉ gmailIds c.view) :
    execInsertEmail c r = .ok ⟨c.committed, c.pending ++ [.insertEmail r]⟩ := by
  simp [execInsertEmail, hm, hg]

theorem execInsertEmail_err (c : Conn) (r : EmailRow)
    (h : r.message_id ∈ messageIds c.view ∨ r.gmail_id ∈ gmailIds c.view) :
    execInsertEmail c r = .error () := by
  simp [execInsertEmail, h]

theorem view_insertEmail (c : Conn) (r : EmailRow) :
    (Conn.view ⟨c.committed, c.pending ++ [.insertEmail r]⟩).emails =
      c.view.emails ++ [r] := by
  rw [view_append_op]
  rfl

theorem buildRow_gmail_id (env : Env) (gid : String) (raw : RawMsg) :
    (buildRow env gid raw).gmail_id = gid := rfl

theorem buildRow_message_id (env : Env) (fetch : String → RawMsg) (gid : String) :
    (buildRow env gid (fetch gid)).message_id = midOf fetch gid := rfl

theorem archiveOne_success (env : Env) (fetch : String → RawMsg)
    (failAt : String → FailAt) (st : BState) (gid : String)
    (hm : midOf fetch gid ∉ messageIds st.conn.view)
    (hg : gid ∉ gmailIds st.conn.view)
    (hf : failAt gid ≠ .afterInsert) :
    (archiveOne env fetch failAt st gid).newly = st.newly + 1 ∧
    (archiveOne env fetch failAt st gid).skipped = st.skipped ∧
    (archiveOne env fetch failAt st gid).conn.view.emails =
      st.conn.view.emails ++ [buildRow env gid (fetch gid)] ∧
    (archiveOne env fetch failAt st gid).conn.committed =
      (archiveOne env fetch failAt st gid).conn.view := by
  have hok := execInsertEmail_ok st.conn (buildRow env gid (fetch gid)) hm hg
  simp only [archiveOne, hok]
  rw [if_neg hf]
  refine ⟨rfl, rfl, ?_, rfl⟩
  rw [commit_view, attsFold_view_emails, view_insertEmail]

theorem processMessage_skip (env : Env) (fetch : String → RawMsg)
    (failAt : String → FailAt) (st : BState) (gid : String)
    (h : gid ∈ gmailIds st.conn.view) :
    processMessage env fetch failAt st gid = ⟨st.conn, st.newly, st.skipped + 1⟩ := by
  simp [processMessage, h]

theorem processMessage_before (env : Env) (fetch : String → RawMsg)
    (failAt : String → FailAt) (st : BState) (gid : String)
    (h : gid ∉ gmailIds st.conn.view) (hf : failAt gid = .beforeInsert) :
    processMessage env fetch failAt st gid = st := by
  simp [processMessage, h, hf]

theorem processMessage_dup (env : Env) (fetch : String → RawMsg)
    (failAt : String → FailAt) (st : BState) (gid : String)
    (h : gid ∉ gmailIds st.conn.view)
    (hm : midOf fetch gid ∈ messageIds st.conn.view) :
    processMessage env fetch failAt st gid = st := by
  by_cases hf : failAt gid = .beforeInsert
  · exact processMessage_before env fetch failAt st gid h hf
  · have herr := execInsertEmail_err st.conn (buildRow env gid (fetch gid)) (Or.inl hm)
    simp [processMessage, h, hf, archiveOne, herr]

theorem processMessage_archive (env : Env) (fetch : String → RawMsg)
    (failAt : String → FailAt) (st : BState) (gid : String)
    (hg : gid ∉ gmailIds st.conn.view)
    (hm : midOf fetch gid ∉ messageIds st.conn.view)
    (hf : failAt gid = .noFail) :
    (processMessage env fetch failAt st gid).newly = st.newly + 1 ∧
    (processMessage env fetch failAt st gid).skipped = st.skipped ∧
    (processMessage env fetch failAt st gid).conn.view.emails =
      st.conn.view.emails ++ [buildRow env gid (fetch gid)] ∧
    (processMessage env fetch failAt st gid).conn.committed =
      (processMessage env fetch failAt st gid).conn.view := by
  have h1 : failAt gid ≠ .beforeInsert := by rw [hf]; simp
  have h2 : failAt gid ≠ .afterInsert := by rw [hf]; simp
  simp only [processMessage, if_neg hg, if_neg h1]
  exact archiveOne_success env fetch failAt st gid hm hg h2

theorem backupFold_fresh (env : Env) (fetch : String → RawMsg)
    (failAt : String → FailAt) (l : List String) :
    ∀ st : BState,
      (∀ g ∈ l, failAt g = .noFail) →
      (∀ g ∈ l, g ∉ gmailIds st.conn.view) →
      l.Nodup →
      (∀ g ∈ l, midOf fetch g ∉ messageIds st.conn.view) →
      (l.map (midOf fetch)).Nodup →
      gmailIds (l.foldl (processMessage env fetch failAt) st).conn.view =
        gmailIds st.conn.view ++ l ∧
      messageIds (l.foldl (processMessage env fetch failAt) st).conn.view =
        messageIds st.conn.view ++ l.map (midOf fetch) ∧
      (l.foldl (processMessage env fetch failAt) st).newly = st.newly + l.length ∧
      (l.foldl (processMessage env fetch failAt) st).skipped = st.skipped := by
  induction l with
  | nil =>
    intro st _ _ _ _ _
    simp
  | cons g l ih =>
    intro st hfail hgid hnd hmid hmnd
    rw [List.foldl_cons]
    have hg : g ∉ gmailIds st.conn.view := hgid g (List.mem_cons_self g l)
    have hm : midOf fetch g ∉ messageIds st.conn.view :=
      hmid g (List.mem_cons_self g l)
    have hf : failAt g = .noFail := hfail g (List.mem_cons_self g l)
    have harch := processMessage_archive env fetch failAt st g hg hm hf
    have hgnotl : g ∉ l := (List.nodup_cons.mp hnd).1
    have hmnotl : midOf fetch g ∉ l.map (midOf fetch) := by
      have := hmnd
      rw [List.map_cons, List.nodup_cons] at this
      exact this.1
    have hg1 : gmailIds (processMessage env fetch failAt st g).conn.view =
        gmailIds st.conn.view ++ [g] := by
      rw [gmailIds, harch.2.2.1, List.map_append]
      rfl
    have hm1 : messageIds (processMessage env fetch failAt st g).conn.view =
        messageIds st.conn.view ++ [midOf fetch g] := by
      rw [messageIds, harch.2.2.1, List.map_append]
      rfl
    have hrest := ih (processMessage env fetch failAt st g)
      (fun g' hg' => hfail g' (List.mem_cons_of_mem g hg'))
      (fun g' hg' => by
        rw [hg1]
        simp only [List.mem_append, List.mem_singleton]
        rintro (h1 | h2)
        · exact hgid g' (List.mem_cons_of_mem g hg') h1
        · exact hgnotl (h2 ▸ hg'))
      (List.nodup_cons.mp hnd).2
      (fun g' hg' => by
        rw [hm1]
        simp only [List.mem_append, List.mem_singleton]
        rintro (h1 | h2)
        · exact hmid g' (List.mem_cons_of_mem g hg') h1
        · exact hmnotl (h2 ▸ List.mem_map_of_mem (midOf fetch) hg'))
      (by
        have := hmnd
        rw [List.map_cons, List.nodup_cons] at this
        exact this.2)
    refine ⟨?_, ?_, ?_, ?_⟩
    · rw [hrest.1, hg1, List.append_assoc, List.singleton_append]
    · rw [hrest.2.1, hm1, List.append_assoc, List.singleton_append, List.map_cons]
    · rw [hrest.2.2.1, harch.1, List.length_cons]
      omega
    · rw [hrest.2.2.2, harch.2.1]

theorem backupFold_skip (env : Env) (fetch : String → RawMsg)
    (failAt : String → FailAt) (l : List String) :
    ∀ st : BState,
      (∀ g ∈ l, g ∈ gmailIds st.conn.view) →
      l.foldl (processMessage env fetch failAt) st =
        ⟨st.conn, st.newly, st.skipped + l.length⟩ := by
  induction l with
  | nil =>
    intro st _
    obtain ⟨c, n, k⟩ := st
    simp
  | cons g l ih =>
    intro st h
    rw [List.foldl_cons,
      processMessage_skip env fetch failAt st g (h g (List.mem_cons_self g l)),
      ih ⟨st.conn, st.newly, st.skipped + 1⟩
        (fun g' hg' => h g' (List.mem_cons_of_mem g hg')),
      List.length_cons]
    simp [BState.mk.injEq]
    omega

/-- C2: a second sync over an unchanged listing archives nothing twice.
Starting from a store that holds none of the listed messages, a clean
first run archives every listed message and skips none; in the second
run every listed message is already present, so it is skipped before
any fetch: the second run's newly-archived count is 0 and its skipped
count equals the first run's newly-archived count. -/
theorem c2_sync_idempotent (env : Env) (fetch : String → RawMsg)
    (failAt : String → FailAt) (listing : List String) (conn₀ : Conn)
    (hfail : ∀ g ∈ listing, failAt g = .noFail)
    (hgid : ∀ g ∈ listing, g ∉ gmailIds conn₀.view)
    (hgnd : listing.Nodup)
    (hmid : ∀ g ∈ listing, midOf fetch g ∉ messageIds conn₀.view)
    (hmnd : (listing.map (midOf fetch)).Nodup) :
    (backup_emails env fetch failAt listing conn₀).newly = listing.length ∧
    (backup_emails env fetch failAt listing conn₀).skipped = 0 ∧
    (∀ g ∈ listing,
      g ∈ gmailIds (backup_emails env fetch failAt listing conn₀).conn.view) ∧
    (backup_emails env fetch failAt listing
      (backup_emails env fetch failAt listing conn₀).conn).newly = 0 ∧
    (backup_emails env fetch failAt listing
      (backup_emails env fetch failAt listing conn₀).conn).skipped =
      (backup_emails env fetch failAt listing conn₀).newly := by
  have h1 := backupFold_fresh env fetch failAt listing ⟨conn₀, 0, 0⟩
    hfail hgid hgnd hmid hmnd
  have hmem : ∀ g ∈ listing,
      g ∈ gmailIds (backup_emails env fetch failAt listing conn₀).conn.view := by
    intro g hg
    show g ∈ gmailIds (listing.foldl (processMessage env fetch failAt)
      ⟨conn₀, 0, 0⟩).conn.view
    rw [h1.1]
    exact List.mem_append_right _ hg
  have h2 := backupFold_skip env fetch failAt listing
    ⟨(backup_emails env fetch failAt listing conn₀).conn, 0, 0⟩ (fun g hg => hmem g hg)
  refine ⟨?_, ?_, hmem, ?_, ?_⟩
  · show (listing.foldl (processMessage env fetch failAt) ⟨conn₀, 0, 0⟩).newly = _
    rw [h1.2.2.1]
    simp
  · exact h1.2.2.2
  · show (listing.foldl (processMessage env fetch failAt)
      ⟨(backup_emails env fetch failAt listing conn₀).conn, 0, 0⟩).newly = 0
    rw [h2]
  · show (listing.foldl (processMessage env fetch failAt)
      ⟨(backup_emails env fetch failAt listing conn₀).conn, 0, 0⟩).skipped = _
    rw [h2]
    show 0 + listing.length = _
    have : (backup_emails env fetch failAt listing conn₀).newly = listing.length := by
      show (listing.foldl (processMessage env fetch failAt) ⟨conn₀, 0, 0⟩).newly = _
      rw [h1.2.2.1]
      simp
    rw [this]
    omega

/-- Witness for C2 on a concrete two-message listing over the empty
store. -/
theorem c2_witness :
    (backup_emails envA fetchA failNone ["g1", "g2"] connEmpty).newly = 2 ∧
    (backup_emails envA fetchA failNone ["g1", "g2"]
      (backup_emails envA fetchA failNone ["g1", "g2"] connEmpty).conn).newly = 0 ∧
    (backup_emails envA fetchA failNone ["g1", "g2"]
      (backup_emails envA fetchA failNone ["g1", "g2"] connEmpty).conn).skipped = 2 := by
  have h := c2_sync_idempotent envA fetchA failNone ["g1", "g2"] connEmpty
    (by decide) (by decide) (by decide) (by decide) (by decide)
  refine ⟨h.1.trans (by decide), h.2.2.2.1, h.2.2.2.2.trans (h.1.trans (by decide))⟩

theorem applyOps_emails_prefix (ops : List DBOp) :
    ∀ db : DB, ∃ rest, (applyOps db ops).emails = db.emails ++ rest := by
  induction ops with
  | nil =>
    intro db
    exact ⟨[], by simp [applyOps]⟩
  | cons op ops ih =>
    intro db
    obtain ⟨rest, hr⟩ := ih (applyOp db op)
    cases op with
    | insertEmail r =>
      exact ⟨r :: rest, by
        show (applyOps (applyOp db (.insertEmail r)) ops).emails = _
        rw [hr]
        simp [applyOp]⟩
    | insertAtt a =>
      exact ⟨rest, by
        show (applyOps (applyOp db (.insertAtt a)) ops).emails = _
        rw [hr]
        rfl⟩

theorem committed_mids_nodup_of_view (c : Conn)
    (h : (messageIds c.view).Nodup) : (messageIds c.committed).Nodup := by
  obtain ⟨rest, hr⟩ := applyOps_emails_prefix c.pending c.committed
  have hsplit : messageIds c.view =
      messageIds c.committed ++ rest.map (·.message_id) := by
    simp [messageIds, Conn.view, hr]
  rw [hsplit] at h
  exact h.of_append_left

theorem processMessage_mids_nodup (env : Env) (fetch : String → RawMsg)
    (failAt : String → FailAt) (st : BState) (gid : String)
    (h : (messageIds st.conn.view).Nodup) :
    (messageIds (processMessage env fetch failAt st gid).conn.view).Nodup := by
  by_cases hg : gid ∈ gmailIds st.conn.view
  · rw [processMessage_skip env fetch failAt st gid hg]
    exact h
  by_cases hb : failAt gid = .beforeInsert
  · rw [processMessage_before env fetch failAt st gid hg hb]
    exact h
  simp only [processMessage, if_neg hg, if_neg hb]
  by_cases hm : midOf fetch gid ∈ messageIds st.conn.view
  · have herr := execInsertEmail_err st.conn (buildRow env gid (fetch gid)) (Or.inl hm)
    simp [archiveOne, herr]
    exact h
  · have harch := archiveOne_success env fetch failAt st gid hm hg
    by_cases ha : failAt gid = .afterInsert
    · have hok := execInsertEmail_ok st.conn (buildRow env gid (fetch gid)) hm hg
      simp only [archiveOne, hok]
      rw [if_pos ha]
      show (messageIds (Conn.view ⟨st.conn.committed,
        st.conn.pending ++ [.insertEmail (buildRow env gid (fetch gid))]⟩)).Nodup
      have : messageIds (Conn.view ⟨st.conn.committed,
          st.conn.pending ++ [.insertEmail (buildRow env gid (fetch gid))]⟩) =
          messageIds st.conn.view ++ [midOf fetch gid] := by
        rw [messageIds, view_insertEmail, List.map_append]
        rfl
      rw [this]
      simp [List.nodup_append, h, hm]
    · have hst := (harch ha).2.2.1
      have : messageIds (archiveOne env fetch failAt st gid).conn.view =
          messageIds st.conn.view ++ [midOf fetch gid] := by
        rw [messageIds, hst, List.map_append]
        rfl
      rw [this]
      simp [List.nodup_append, h, hm]

/-- C10: two remote messages with distinct gmail ids but byte-identical
Message-ID headers collide on the emails PRIMARY KEY: a run never
introduces a duplicate `message_id` into the store's view or its
committed state, and processing a message whose gmail id is new but
whose Message-ID is already present leaves the state completely
unchanged — no row is inserted and it is counted as neither newly
archived nor skipped. -/
theorem c10_duplicate_message_id (env : Env) (fetch : String → RawMsg)
    (failAt : String → FailAt) :
    (∀ (listing : List String) (conn : Conn),
      (messageIds conn.view).Nodup →
      (messageIds (backup_emails env fetch failAt listing conn).conn.view).Nodup ∧
      (messageIds (backup_emails env fetch failAt listing conn).conn.committed).Nodup) ∧
    (∀ (st : BState) (gid : String),
      gid ∉ gmailIds st.conn.view →
      midOf fetch gid ∈ messageIds st.conn.view →
      processMessage env fetch failAt st gid = st) := by
  constructor
  · intro listing conn h
    have hview : ∀ st : BState, (messageIds st.conn.view).Nodup →
        (messageIds (listing.foldl (processMessage env fetch failAt) st).conn.view).Nodup := by
      induction listing with
      | nil => intro st hst; exact hst
      | cons g l ih =>
        intro st hst
        rw [List.foldl_cons]
        exact ih _ (processMessage_mids_nodup env fetch failAt st g hst)
    have h1 : (messageIds (backup_emails env fetch failAt listing conn).conn.view).Nodup :=
      hview ⟨conn, 0, 0⟩ h
    exact ⟨h1, committed_mids_nodup_of_view _ h1⟩
  · intro st gid hg hm
    exact processMessage_dup env fetch failAt st gid hg hm

/-- Witness for C10: with every message claiming Message-ID `"M"`, a
two-message run keeps the view duplicate-free, and processing the
second message changes nothing. -/
theorem c10_witness :
    (messageIds (backup_emails envA fetchDup failNone ["g1", "g2"]
      connEmpty).conn.view).Nodup ∧
    processMessage envA fetchDup failNone
      (backup_emails envA fetchDup failNone ["g1"] connEmpty) "g2" =
      backup_emails envA fetchDup failNone ["g1"] connEmpty := by
  constructor
  · exact ((c10_duplicate_message_id envA fetchDup failNone).1 ["g1", "g2"]
      connEmpty (by decide)).1
  · exact (c10_duplicate_message_id envA fetchDup failNone).2
      (backup_emails envA fetchDup failNone ["g1"] connEmpty) "g2"
      (by decide) (by decide)

/-- C8: `parse_date_epoch` yields 0 for an absent header and for any
parse failure, and a message whose epoch is 0 is still archived — its
counter increments and its row lands in the store with the raw blob
path under the "unknown" year/month bucket. -/
theorem c8_date_fallback (env : Env) (fetch : String → RawMsg)
    (failAt : String → FailAt) (st : BState) (gid : String)
    (hg : gid ∉ gmailIds st.conn.view)
    (hm : midOf fetch gid ∉ messageIds st.conn.view)
    (hf : failAt gid = .noFail)
    (hd : parse_date_epoch env.parsedate ((fetch gid).msg.header_date.getD "") = 0) :
    (∀ pd : String → Option Int, parse_date_epoch pd "" = 0) ∧
    (∀ (pd : String → Option Int) (s : String), pd s = none →
      parse_date_epoch pd s = 0) ∧
    (processMessage env fetch failAt st gid).newly = st.newly + 1 ∧
    (∃ r ∈ (processMessage env fetch failAt st gid).conn.view.emails,
      r.gmail_id = gid ∧ r.date_epoch = 0 ∧
      r.raw_path = env.rawRoot ++ "/" ++ "unknown" ++ "/" ++
        env.hashKey (midOf fetch gid) ++ ".eml") := by
  have harch := processMessage_archive env fetch failAt st gid hg hm hf
  refine ⟨?_, ?_, harch.1, ?_⟩
  · intro pd
    simp [parse_date_epoch]
  · intro pd s hs
    by_cases he : s = "" <;> simp [parse_date_epoch, he, hs]
  · refine ⟨buildRow env gid (fetch gid), ?_, rfl, ?_, ?_⟩
    · rw [harch.2.2.1]
      exact List.mem_append_right _ (List.mem_singleton.mpr rfl)
    · show parse_date_epoch env.parsedate ((fetch gid).msg.header_date.getD "") = 0
      exact hd
    · show env.rawRoot ++ "/" ++
        (if parse_date_epoch env.parsedate ((fetch gid).msg.header_date.getD "") ≠ 0
          then env.fmtYM (parse_date_epoch env.parsedate
            ((fetch gid).msg.header_date.getD ""))
          else "unknown") ++ "/" ++ env.hashKey (midOf fetch gid) ++ ".eml" = _
      rw [hd]
      simp

/-- Witness for C8: `fetchA` carries no Date header, so the epoch is 0
and the archived row's path uses the "unknown" bucket. -/
theorem c8_witness :
    (processMessage envA fetchA failNone ⟨connEmpty, 0, 0⟩ "g1").newly = 1 ∧
    (∃ r ∈ (processMessage envA fetchA failNone
      ⟨connEmpty, 0, 0⟩ "g1").conn.view.emails,
      r.gmail_id = "g1" ∧ r.date_epoch = 0 ∧
      r.raw_path = envA.rawRoot ++ "/" ++ "unknown" ++ "/" ++
        envA.hashKey (midOf fetchA "g1") ++ ".eml") := by
  have h := c8_date_fallback envA fetchA failNone ⟨connEmpty, 0, 0⟩ "g1"
    (by decide) (by decide) (by decide) (by decide)
  exact ⟨h.2.2.1, h.2.2.2⟩

/-- C1: atomicity fails on the code.  With message `g1` raising after
its emails INSERT but before its commit (and no rollback in the source),
the subsequent successful message `g2` commits the partial rows of `g1`: the
run counts only one message as backed up, yet the committed store holds
`g1`'s emails row and full-text entry. -/
theorem c1_partial_rows_committed :
    (backup_emails envA fetchA failB ["g1", "g2"] connEmpty).newly = 1 ∧
    (backup_emails envA fetchA failB ["g1", "g2"] connEmpty).skipped = 0 ∧
    messageIds (backup_emails envA fetchA failB
      ["g1", "g2"] connEmpty).conn.committed = ["Mg1", "Mg2"] ∧
    ((backup_emails envA fetchA failB ["g1", "g2"] connEmpty).conn.committed.fts.map
      (·.key)) = ["Mg1", "Mg2"] := by
  refine ⟨by decide, by decide, by decide, by decide⟩

end EmailBackup
